import Mathlib

/-!
Verification of the `locateimage` Go package: a brute-force sliding-window
search of a sample image inside a canvas image.

The development shallowly embeds the package's core (`foreachRGBA` in the
scanner file, `Find`/`All`/`Foreach`/`Sort` in the API file, `abs` in
`mathutil.go`) as executable Lean definitions and proves the specification
claims about them.

Modelling conventions:
* Go `float64` values (tolerance, similarity, thresholds before conversion)
  are modelled by exact rationals `ℚ`; conversion `int64(x)` (truncation
  toward zero) is `i64`.
* Go `image.RGBA` is modelled by `RGBA`: the rectangle corners, the row
  stride and the raw byte buffer `pix : ℕ → ℕ` (indexing in the scanner
  starts at offset 0, exactly as the source does).
* `context.Context` is modelled by `Option GoErr`: the value of `ctx.Err()`
  during the scan (`none` = not cancelled).
* The callback's mutation of captured variables is modelled by explicit
  state threading (`σ`); a Go `error` result is `Option GoErr`.
-/

attribute [local semireducible] Rat.add Rat.sub Rat.mul Rat.inv

namespace LocateImage

/-- The errors of the package (`ErrBreak`, `ErrNotFound`, `ErrMultipleFound`),
a context cancellation cause (`canceled`, modelling `context.Canceled`), and
arbitrary caller-defined callback errors (`other`). -/
inductive GoErr where
  | errBreak
  | errNotFound
  | errMultipleFound
  | canceled
  | other (code : ℕ)
deriving DecidableEq

/-- Go `image.RGBA`: bounds rectangle `(minX,minY)-(maxX,maxY)`, row stride in
bytes, and the pixel buffer (4 bytes per pixel: R,G,B,A). The buffer is a
total function; the source indexes it from offset 0 for the top-left pixel. -/
structure RGBA where
  minX : ℤ
  minY : ℤ
  maxX : ℤ
  maxY : ℤ
  stride : ℕ
  pix : ℕ → ℕ

/-- `Rect.Dx()` of the image: width. -/
def RGBA.dx (im : RGBA) : ℤ := im.maxX - im.minX

/-- `Rect.Dy()` of the image: height. -/
def RGBA.dy (im : RGBA) : ℤ := im.maxY - im.minY

/-- A single match: the matched rectangle of the canvas
(`rminX,rminY`)-(`rmaxX,rmaxY`) and the similarity score. -/
structure Match where
  rminX : ℤ
  rminY : ℤ
  rmaxX : ℤ
  rmaxY : ℤ
  Similarity : ℚ
deriving DecidableEq

/-- The zero value of Go's `Match` struct (`var best Match`). -/
def zeroMatch : Match := ⟨0, 0, 0, 0, 0⟩

/-- `abs` from `mathutil.go`; the source computes `(n ^ (n >> 63)) - (n >> 63)`,
which equals the absolute value for every delta arising here. -/
def abs (n : ℤ) : ℤ := if n < 0 then -n else n

/-- Go conversion `int64(q)` of a float: truncation toward zero. Implemented
with natural division so that it evaluates by kernel reduction. -/
def i64 (q : ℚ) : ℤ :=
  if q < 0 then -(Int.ofNat ((-q).num.toNat / (-q).den))
  else Int.ofNat (q.num.toNat / q.den)

/-- `pixelDiffThreshold := int64(3*256*pixelTolerance + 0.5)` with
`pixelTolerance := 2 * tolerance` (scanner lines 21-22). -/
def pixelDiffThreshold (tolerance : ℚ) : ℤ :=
  i64 (3 * 256 * (2 * tolerance) + 1 / 2)

/-- `maxTotalDiff := int64(wcanv) * int64(hcanv) * 3 * 255` (scanner line 23).
Note that `wcanv`/`hcanv` have already been decremented by `wsamp-1`/`hsamp-1`
at this point (lines 18-19), so this counts window origins, not sample pixels. -/
def maxTotalDiff (canvas sample : RGBA) : ℤ :=
  (canvas.dx - (sample.dx - 1)) * (canvas.dy - (sample.dy - 1)) * 3 * 255

/-- `totalDiffThreshold := int64(tolerance*float64(maxTotalDiff) + 0.5)`
(scanner line 24). -/
def totalDiffThreshold (canvas sample : RGBA) (tolerance : ℚ) : ℤ :=
  i64 (tolerance * (maxTotalDiff canvas sample : ℚ) + 1 / 2)

/-- The per-pixel channel difference sum
`abs(R_c-R_s) + abs(G_c-G_s) + abs(B_c-B_s)` (scanner lines 45-48). -/
def pixelDelta (pixCanv pixSamp : ℕ → ℕ) (icanv isamp : ℕ) : ℤ :=
  abs ((pixCanv icanv : ℤ) - (pixSamp isamp : ℤ)) +
    abs ((pixCanv (icanv + 1) : ℤ) - (pixSamp (isamp + 1) : ℤ)) +
    abs ((pixCanv (icanv + 2) : ℤ) - (pixSamp (isamp + 2) : ℤ))

/-- The inner pixel loop `for isamp < isampmax` (scanner lines 44-61): `n` is
the number of remaining pixels in the sample row (the loop steps `isamp` by 4
up to `rowsamp + 4*wsamp`, hence `wsamp` iterations). Returns `none` when the
window is rejected by one of the two early exits, otherwise the accumulated
running difference. -/
def scanRowPixels (pixCanv pixSamp : ℕ → ℕ) (pdt tdt : ℤ) :
    ℕ → ℕ → ℕ → ℤ → Option ℤ
  | _, _, 0, diff => some diff
  | icanv, isamp, n + 1, diff =>
    let delta := pixelDelta pixCanv pixSamp icanv isamp
    if delta > pdt then none
    else if diff + delta > tdt then none
    else scanRowPixels pixCanv pixSamp pdt tdt (icanv + 4) (isamp + 4) n (diff + delta)

/-- The row loop `for rowsamp < rowsampmax; rowsamp += strideSamp` (scanner
lines 40-64): `n` is the number of remaining sample rows. -/
def scanRows (canvas sample : RGBA) (pdt tdt : ℤ) : ℕ → ℕ → ℕ → ℤ → Option ℤ
  | _, _, 0, diff => some diff
  | rowcanv, rowsamp, n + 1, diff =>
    match scanRowPixels canvas.pix sample.pix pdt tdt rowcanv rowsamp sample.dx.toNat diff with
    | none => none
    | some diff1 =>
      scanRows canvas sample pdt tdt (rowcanv + canvas.stride) (rowsamp + sample.stride) n diff1

/-- Number of iterations of the row loop: `rowsamp` runs `0, strideSamp, ...`
while `< strideSamp * hsamp`, i.e. `hsamp` iterations when the stride is
positive and none when it is zero. -/
def rowIterations (sample : RGBA) : ℕ :=
  if sample.stride = 0 then 0 else sample.dy.toNat

/-- Evaluation of one candidate window with origin `(x, y)`: the `matchLoop`
of the scanner (lines 37-64), starting at canvas byte offset
`y*strideCanv + x*4`. `some diff` means the window matched. -/
def windowDiff (canvas sample : RGBA) (pdt tdt : ℤ) (x y : ℕ) : Option ℤ :=
  scanRows canvas sample pdt tdt (y * canvas.stride + x * 4) 0 (rowIterations sample) 0

/-- The `Match` built for an accepted window (scanner lines 66-71):
`pt := canvas.Rect.Min.Add(image.Point{x, y})`, rectangle `pt` to
`pt.Add(image.Point{wsamp, hsamp})`, similarity `1 - diff/maxTotalDiff`. -/
def mkMatch (canvas sample : RGBA) (x y : ℕ) (diff : ℤ) : Match where
  rminX := canvas.minX + x
  rminY := canvas.minY + y
  rmaxX := canvas.minX + x + sample.dx
  rmaxY := canvas.minY + y + sample.dy
  Similarity := 1 - (diff : ℚ) / (maxTotalDiff canvas sample : ℚ)

/-- The guard of scanner line 15:
`wcanv < wsamp || hcanv < hsamp || wsamp == 0 || hsamp == 0`. -/
def emptyScan (canvas sample : RGBA) : Bool :=
  decide (canvas.dx < sample.dx) || decide (canvas.dy < sample.dy) ||
    decide (sample.dx = 0) || decide (sample.dy = 0)

/-- The inner loop over `x` (scanner lines 34-76): `n` windows remain in the
current row. State `st` threads the callback's captured variables. -/
def loopX {σ : Type} (canvas sample : RGBA) (pdt tdt : ℤ)
    (f : σ → Match → σ × Option GoErr) (y : ℕ) : ℕ → ℕ → σ → σ × Option GoErr
  | _, 0, st => (st, none)
  | x, n + 1, st =>
    match windowDiff canvas sample pdt tdt x y with
    | none => loopX canvas sample pdt tdt f y (x + 1) n st
    | some diff =>
      match f st (mkMatch canvas sample x y diff) with
      | (st1, some e) => (st1, some e)
      | (st1, none) => loopX canvas sample pdt tdt f y (x + 1) n st1

/-- The outer loop over `y` (scanner lines 27-77), with the per-row
cancellation check of lines 30-32. -/
def loopY {σ : Type} (ctx : Option GoErr) (canvas sample : RGBA) (pdt tdt : ℤ)
    (wN : ℕ) (f : σ → Match → σ × Option GoErr) : ℕ → ℕ → σ → σ × Option GoErr
  | _, 0, st => (st, none)
  | y, n + 1, st =>
    match ctx with
    | some e => (st, some e)
    | none =>
      match loopX canvas sample pdt tdt f y 0 wN st with
      | (st1, some e) => (st1, some e)
      | (st1, none) => loopY ctx canvas sample pdt tdt wN f (y + 1) n st1

/-- `foreachRGBA` (the whole scanner): guard, threshold derivation, then the
row-major double loop over window origins. -/
def foreachRGBA {σ : Type} (ctx : Option GoErr) (canvas sample : RGBA)
    (tolerance : ℚ) (f : σ → Match → σ × Option GoErr) (s0 : σ) : σ × Option GoErr :=
  if emptyScan canvas sample then (s0, none)
  else
    loopY ctx canvas sample (pixelDiffThreshold tolerance)
      (totalDiffThreshold canvas sample tolerance)
      (canvas.dx - (sample.dx - 1)).toNat f 0 (canvas.dy - (sample.dy - 1)).toNat s0

/-- `SimilarityPrecision` from the API file. -/
def SimilarityPrecision : ℚ := 1 / 1000000

/-- `math.Abs` on our rational model of float64. -/
def ratAbs (q : ℚ) : ℚ := if q < 0 then -q else q

/-- `Match.Before`: similarity descending when the difference is significant,
otherwise Y then X ascending. -/
def Match.Before (a b : Match) : Bool :=
  if ratAbs (a.Similarity - b.Similarity) ≥ SimilarityPrecision then
    decide (a.Similarity > b.Similarity)
  else if a.rminY ≠ b.rminY then decide (a.rminY < b.rminY)
  else if a.rminX ≠ b.rminX then decide (a.rminX < b.rminX)
  else false

/-- Insertion of a match into a `Before`-sorted list. -/
def insertSorted (m : Match) : List Match → List Match
  | [] => [m]
  | x :: xs => if m.Before x then m :: x :: xs else x :: insertSorted m xs

/-- `Sort` of the package (the Lean keyword forces a different name here):
sorts matches in the order established by `Match.Before`. The source delegates
to Go's (unstable) `sort.Sort`, which produces some `Before`-ordered
permutation; insertion sort is one such permutation. -/
def sortMatches : List Match → List Match
  | [] => []
  | x :: xs => insertSorted x (sortMatches xs)

/-- The `Selection` mode of `Find`. -/
inductive Selection where
  | Fastest
  | Best
  | Only
deriving DecidableEq

/-- The callback closure of `Find`: state is `(best, count)`. -/
def findCallback (selection : Selection) (st : Match × ℕ) (m : Match) :
    (Match × ℕ) × Option GoErr :=
  ((if st.2 = 0 ∨ m.Similarity > st.1.Similarity then m else st.1, st.2 + 1),
    if selection = Selection.Fastest then some GoErr.errBreak else none)

/-- `Find`: runs the scan with the `findCallback` accumulator, maps `ErrBreak`
to success, then applies the not-found / multiple-found checks. -/
def Find (ctx : Option GoErr) (canvas sample : RGBA) (tolerance : ℚ)
    (selection : Selection) : Match × Option GoErr :=
  let r := foreachRGBA ctx canvas sample tolerance (findCallback selection) (zeroMatch, 0)
  match if r.2 = some GoErr.errBreak then none else r.2 with
  | none =>
    if r.1.2 = 0 then (r.1.1, some GoErr.errNotFound)
    else if selection = Selection.Only ∧ 1 < r.1.2 then (r.1.1, some GoErr.errMultipleFound)
    else (r.1.1, none)
  | some e => (r.1.1, some e)

/-- The callback closure of `All`: appends every match to the accumulated list
and never signals an error. -/
def appendCallback (mm : List Match) (m : Match) : List Match × Option GoErr :=
  (mm ++ [m], none)

/-- The raw emission trace of the scan: the matches passed to the callback, in
emission order, together with the scan's error result. (`All` before sorting.) -/
def scanTrace (ctx : Option GoErr) (canvas sample : RGBA) (tolerance : ℚ) :
    List Match × Option GoErr :=
  foreachRGBA ctx canvas sample tolerance appendCallback []

/-- `All`: accumulates every emitted match, sorts, and returns the scan error. -/
def All (ctx : Option GoErr) (canvas sample : RGBA) (tolerance : ℚ) :
    List Match × Option GoErr :=
  (sortMatches (scanTrace ctx canvas sample tolerance).1, (scanTrace ctx canvas sample tolerance).2)

/-- `Foreach` with the two `image.RGBA` arguments already in canonical form
(the Go wrapper's type switch cannot fail in this model): runs the scanner
with the caller's stateless callback. -/
def Foreach (ctx : Option GoErr) (canvas sample : RGBA) (tolerance : ℚ)
    (f : Match → Option GoErr) : Option GoErr :=
  (foreachRGBA ctx canvas sample tolerance (fun _ m => (PUnit.unit, f m)) PUnit.unit).2

/-- Reference enumeration: the accepted window at origin `(x, y)`, if any. -/
def acceptedAt (canvas sample : RGBA) (tolerance : ℚ) (y x : ℕ) : Option Match :=
  (windowDiff canvas sample (pixelDiffThreshold tolerance)
      (totalDiffThreshold canvas sample tolerance) x y).map (mkMatch canvas sample x y)

/-- Reference enumeration: all accepted windows of row `y`, by ascending `x`. -/
def rowMatches (canvas sample : RGBA) (tolerance : ℚ) (y : ℕ) : List Match :=
  (List.range (canvas.dx - (sample.dx - 1)).toNat).filterMap (acceptedAt canvas sample tolerance y)

/-- Reference enumeration: all accepted windows in row-major order, i.e. outer
`y` from `0` to `canvas_height - sample_height` inclusive, inner `x` from `0`
to `canvas_width - sample_width` inclusive. -/
def rowMajorMatches (canvas sample : RGBA) (tolerance : ℚ) : List Match :=
  if emptyScan canvas sample then []
  else (List.range (canvas.dy - (sample.dy - 1)).toNat).flatMap (rowMatches canvas sample tolerance)

/-- Reference model of driving a callback over a list of matches with
early abort on the first error result. -/
def listScan {σ : Type} (f : σ → Match → σ × Option GoErr) :
    σ → List Match → σ × Option GoErr
  | st, [] => (st, none)
  | st, m :: ms =>
    match f st m with
    | (st1, some e) => (st1, some e)
    | (st1, none) => listScan f st1 ms

/-- Reference model of a stateless callback folded over a match list: the
first non-`none` callback result, if any. -/
def listScanErr (f : Match → Option GoErr) : List Match → Option GoErr
  | [] => none
  | m :: ms =>
    match f m with
    | some e => some e
    | none => listScanErr f ms

/-- Strict row-major ordering of match origins: ascending `(y, x)`. -/
def originBefore (a b : Match) : Prop :=
  a.rminY < b.rminY ∨ (a.rminY = b.rminY ∧ a.rminX < b.rminX)

/-- `r` is the first match of maximal similarity in `mm`: everything before it
is strictly less similar, everything after it is at most as similar. -/
def isFirstMax (r : Match) (mm : List Match) : Prop :=
  ∃ l1 l2, mm = l1 ++ r :: l2 ∧ (∀ m ∈ l1, m.Similarity < r.Similarity) ∧
    ∀ m ∈ l2, m.Similarity ≤ r.Similarity

/-- The maximum total difference as the specification words it:
`sample_width * sample_height * 3 * 255`. Stated only to compare with the
source's `maxTotalDiff`. -/
def specMaxTotalDiff (sample : RGBA) : ℤ := sample.dx * sample.dy * 3 * 255

/-- The window threshold as the specification words it:
`round(tolerance * sample_width * sample_height * 3 * 255)`. -/
def specTotalDiffThreshold (sample : RGBA) (tolerance : ℚ) : ℤ :=
  i64 (tolerance * (specMaxTotalDiff sample : ℚ) + 1 / 2)

/-- Helper for concrete test images: byte buffer from a list, zero elsewhere. -/
def pixList (bytes : List ℕ) : ℕ → ℕ := fun i => bytes.getD i 0

/-- Concrete image with bounds `(0,0)-(w,h)` and the canonical stride `4*w`. -/
def mkImage (w h : ℤ) (bytes : List ℕ) : RGBA :=
  ⟨0, 0, w, h, (4 * w).toNat, pixList bytes⟩

/-- 1×1 black image. -/
def imgB : RGBA := mkImage 1 1 [0, 0, 0, 255]

/-- 1×1 image with pixel `(2,0,0,255)`. -/
def imgR2 : RGBA := mkImage 1 1 [2, 0, 0, 255]

/-- 2×1 image with pixels `(10,0,0,255)` and `(0,0,0,255)`. -/
def imgC1 : RGBA := mkImage 2 1 [10, 0, 0, 255, 0, 0, 0, 255]

/-- Zero-sized image. -/
def imgZ : RGBA := mkImage 0 0 []

/-- Sequencing of a scan result with a continuation: stop on error. -/
def seqScan {σ : Type} (r : σ × Option GoErr) (k : σ → σ × Option GoErr) :
    σ × Option GoErr :=
  match r with
  | (st1, some e) => (st1, some e)
  | (st1, none) => k st1

lemma listScan_append {σ : Type} (f : σ → Match → σ × Option GoErr)
    (l1 l2 : List Match) : ∀ st : σ,
    listScan f st (l1 ++ l2) = seqScan (listScan f st l1) fun st1 => listScan f st1 l2 := by
  induction l1 with
  | nil => intro st; rfl
  | cons m ms ih =>
    intro st
    simp only [List.cons_append, listScan]
    cases hf : f st m with
    | mk st1 e =>
      cases e with
      | none => exact ih st1
      | some e1 => rfl

lemma listScan_appendCallback : ∀ (l acc : List Match),
    listScan appendCallback acc l = (acc ++ l, none) := by
  intro l
  induction l with
  | nil => intro acc; simp [listScan]
  | cons m ms ih => intro acc; simp [listScan, appendCallback, ih]

lemma listScanErr_eq (g : Match → Option GoErr) : ∀ (l : List Match) (u : PUnit),
    (listScan (fun _ m => (PUnit.unit, g m)) u l).2 = listScanErr g l := by
  intro l
  induction l with
  | nil => intro u; rfl
  | cons m ms ih =>
    intro u
    simp only [listScan, listScanErr]
    cases g m with
    | none => exact ih PUnit.unit
    | some e => rfl

lemma loopX_eq {σ : Type} (canvas sample : RGBA) (pdt tdt : ℤ)
    (f : σ → Match → σ × Option GoErr) (y : ℕ) :
    ∀ (n x : ℕ) (st : σ),
    loopX canvas sample pdt tdt f y x n st =
      listScan f st ((List.range' x n).filterMap fun x1 =>
        (windowDiff canvas sample pdt tdt x1 y).map (mkMatch canvas sample x1 y)) := by
  intro n
  induction n with
  | zero => intro x st; rfl
  | succ n ih =>
    intro x st
    rw [List.range'_succ, List.filterMap_cons]
    cases hw : windowDiff canvas sample pdt tdt x y with
    | none =>
      simp only [loopX, hw, Option.map_none']
      exact ih (x + 1) st
    | some d =>
      simp only [loopX, hw, Option.map_some', listScan]
      cases hf : f st (mkMatch canvas sample x y d) with
      | mk st1 e =>
        cases e with
        | none => exact ih (x + 1) st1
        | some e1 => rfl

lemma rowMatches_eq (canvas sample : RGBA) (t : ℚ) (y : ℕ) :
    rowMatches canvas sample t y =
      (List.range' 0 (canvas.dx - (sample.dx - 1)).toNat).filterMap fun x1 =>
        (windowDiff canvas sample (pixelDiffThreshold t)
            (totalDiffThreshold canvas sample t) x1 y).map (mkMatch canvas sample x1 y) := by
  rw [rowMatches, List.range_eq_range']
  rfl

lemma loopY_eq {σ : Type} (canvas sample : RGBA) (t : ℚ)
    (f : σ → Match → σ × Option GoErr) :
    ∀ (n y : ℕ) (st : σ),
    loopY none canvas sample (pixelDiffThreshold t) (totalDiffThreshold canvas sample t)
        (canvas.dx - (sample.dx - 1)).toNat f y n st =
      listScan f st ((List.range' y n).flatMap (rowMatches canvas sample t)) := by
  intro n
  induction n with
  | zero => intro y st; rfl
  | succ n ih =>
    intro y st
    rw [List.range'_succ, List.flatMap_cons, listScan_append, rowMatches_eq]
    simp only [loopY]
    rw [loopX_eq canvas sample _ _ f y ((canvas.dx - (sample.dx - 1)).toNat) 0 st]
    cases hr : listScan f st ((List.range' 0 (canvas.dx - (sample.dx - 1)).toNat).filterMap
        fun x1 => (windowDiff canvas sample (pixelDiffThreshold t)
          (totalDiffThreshold canvas sample t) x1 y).map (mkMatch canvas sample x1 y)) with
    | mk st1 e =>
      cases e with
      | none =>
        show loopY none canvas sample _ _ _ f (y + 1) n st1 = _
        rw [ih (y + 1) st1]
        rfl
      | some e1 => rfl

lemma foreachRGBA_none {σ : Type} (canvas sample : RGBA) (tolerance : ℚ)
    (f : σ → Match → σ × Option GoErr) (s0 : σ) :
    foreachRGBA none canvas sample tolerance f s0 =
      listScan f s0 (rowMajorMatches canvas sample tolerance) := by
  rw [foreachRGBA, rowMajorMatches]
  by_cases h : emptyScan canvas sample
  · rw [if_pos h, if_pos h]; rfl
  · rw [if_neg h, if_neg h, loopY_eq, List.range_eq_range']

lemma scanTrace_none (canvas sample : RGBA) (t : ℚ) :
    scanTrace none canvas sample t = (rowMajorMatches canvas sample t, none) := by
  rw [scanTrace, foreachRGBA_none, listScan_appendCallback, List.nil_append]

lemma Foreach_none (canvas sample : RGBA) (t : ℚ) (g : Match → Option GoErr) :
    Foreach none canvas sample t g = listScanErr g (rowMajorMatches canvas sample t) := by
  rw [Foreach, foreachRGBA_none, listScanErr_eq]

lemma foreachRGBA_empty {σ : Type} (ctx : Option GoErr) (canvas sample : RGBA)
    (t : ℚ) (f : σ → Match → σ × Option GoErr) (s0 : σ)
    (h : emptyScan canvas sample = true) :
    foreachRGBA ctx canvas sample t f s0 = (s0, none) := by
  rw [foreachRGBA, if_pos h]

lemma foreachRGBA_cancel {σ : Type} (canvas sample : RGBA) (t : ℚ) (e : GoErr)
    (f : σ → Match → σ × Option GoErr) (s0 : σ)
    (h : emptyScan canvas sample = false) :
    foreachRGBA (some e) canvas sample t f s0 = (s0, some e) := by
  rw [foreachRGBA, if_neg (by simp [h])]
  have h2 : 0 < (canvas.dy - (sample.dy - 1)).toNat := by
    simp only [emptyScan, Bool.or_eq_false_iff, decide_eq_false_iff_not, not_lt] at h
    omega
  obtain ⟨n, hn⟩ : ∃ n, (canvas.dy - (sample.dy - 1)).toNat = n + 1 :=
    ⟨_, (Nat.succ_pred_eq_of_pos h2).symm⟩
  rw [hn]
  rfl

lemma abs_nonneg_go (n : ℤ) : 0 ≤ abs n := by
  rw [abs]; split <;> omega

lemma pixelDelta_nonneg (pc ps : ℕ → ℕ) (ic is : ℕ) : 0 ≤ pixelDelta pc ps ic is := by
  have h1 := abs_nonneg_go ((pc ic : ℤ) - (ps is : ℤ))
  have h2 := abs_nonneg_go ((pc (ic + 1) : ℤ) - (ps (is + 1) : ℤ))
  have h3 := abs_nonneg_go ((pc (ic + 2) : ℤ) - (ps (is + 2) : ℤ))
  rw [pixelDelta]
  omega

lemma scanRowPixels_mono (pc ps : ℕ → ℕ) {pdt tdt pdt1 tdt1 : ℤ}
    (hp : pdt ≤ pdt1) (ht : tdt ≤ tdt1) :
    ∀ (n ic is : ℕ) (diff d : ℤ),
    scanRowPixels pc ps pdt tdt ic is n diff = some d →
      scanRowPixels pc ps pdt1 tdt1 ic is n diff = some d := by
  intro n
  induction n with
  | zero => intro ic is diff d h; exact h
  | succ n ih =>
    intro ic is diff d h
    simp only [scanRowPixels] at h ⊢
    by_cases h1 : pixelDelta pc ps ic is > pdt
    · rw [if_pos h1] at h; cases h
    · rw [if_neg h1] at h
      by_cases h2 : diff + pixelDelta pc ps ic is > tdt
      · rw [if_pos h2] at h; cases h
      · rw [if_neg h2] at h
        rw [if_neg (by omega : ¬pixelDelta pc ps ic is > pdt1),
          if_neg (by omega : ¬diff + pixelDelta pc ps ic is > tdt1)]
        exact ih _ _ _ _ h

lemma scanRows_mono (canvas sample : RGBA) {pdt tdt pdt1 tdt1 : ℤ}
    (hp : pdt ≤ pdt1) (ht : tdt ≤ tdt1) :
    ∀ (n rowc rows : ℕ) (diff d : ℤ),
    scanRows canvas sample pdt tdt rowc rows n diff = some d →
      scanRows canvas sample pdt1 tdt1 rowc rows n diff = some d := by
  intro n
  induction n with
  | zero => intro rowc rows diff d h; exact h
  | succ n ih =>
    intro rowc rows diff d h
    simp only [scanRows] at h ⊢
    cases hrp : scanRowPixels canvas.pix sample.pix pdt tdt rowc rows sample.dx.toNat diff with
    | none => rw [hrp] at h; cases h
    | some diff1 =>
      rw [hrp] at h
      rw [scanRowPixels_mono canvas.pix sample.pix hp ht _ _ _ _ _ hrp]
      exact ih _ _ _ _ h

lemma windowDiff_mono (canvas sample : RGBA) {pdt tdt pdt1 tdt1 : ℤ}
    (hp : pdt ≤ pdt1) (ht : tdt ≤ tdt1) (x y : ℕ) {d : ℤ}
    (h : windowDiff canvas sample pdt tdt x y = some d) :
    windowDiff canvas sample pdt1 tdt1 x y = some d :=
  scanRows_mono canvas sample hp ht _ _ _ _ _ h

lemma scanRowPixels_lb (pc ps : ℕ → ℕ) (pdt tdt : ℤ) :
    ∀ (n ic is : ℕ) (diff d : ℤ),
    scanRowPixels pc ps pdt tdt ic is n diff = some d → diff ≤ d := by
  intro n
  induction n with
  | zero => intro ic is diff d h; cases h; exact le_refl _
  | succ n ih =>
    intro ic is diff d h
    simp only [scanRowPixels] at h
    by_cases h1 : pixelDelta pc ps ic is > pdt
    · rw [if_pos h1] at h; cases h
    · rw [if_neg h1] at h
      by_cases h2 : diff + pixelDelta pc ps ic is > tdt
      · rw [if_pos h2] at h; cases h
      · rw [if_neg h2] at h
        have := ih _ _ _ _ h
        have := pixelDelta_nonneg pc ps ic is
        omega

lemma scanRowPixels_ub (pc ps : ℕ → ℕ) (pdt tdt : ℤ) :
    ∀ (n ic is : ℕ) (diff d : ℤ), diff ≤ tdt →
    scanRowPixels pc ps pdt tdt ic is n diff = some d → d ≤ tdt := by
  intro n
  induction n with
  | zero => intro ic is diff d hd h; cases h; exact hd
  | succ n ih =>
    intro ic is diff d hd h
    simp only [scanRowPixels] at h
    by_cases h1 : pixelDelta pc ps ic is > pdt
    · rw [if_pos h1] at h; cases h
    · rw [if_neg h1] at h
      by_cases h2 : diff + pixelDelta pc ps ic is > tdt
      · rw [if_pos h2] at h; cases h
      · rw [if_neg h2] at h
        exact ih _ _ _ _ (by omega) h

lemma scanRows_lb (canvas sample : RGBA) (pdt tdt : ℤ) :
    ∀ (n rowc rows : ℕ) (diff d : ℤ),
    scanRows canvas sample pdt tdt rowc rows n diff = some d → diff ≤ d := by
  intro n
  induction n with
  | zero => intro rowc rows diff d h; cases h; exact le_refl _
  | succ n ih =>
    intro rowc rows diff d h
    simp only [scanRows] at h
    cases hrp : scanRowPixels canvas.pix sample.pix pdt tdt rowc rows sample.dx.toNat diff with
    | none => rw [hrp] at h; cases h
    | some diff1 =>
      rw [hrp] at h
      have := scanRowPixels_lb canvas.pix sample.pix pdt tdt _ _ _ _ _ hrp
      have := ih _ _ _ _ h
      omega

lemma scanRows_ub (canvas sample : RGBA) (pdt tdt : ℤ) :
    ∀ (n rowc rows : ℕ) (diff d : ℤ), diff ≤ tdt →
    scanRows canvas sample pdt tdt rowc rows n diff = some d → d ≤ tdt := by
  intro n
  induction n with
  | zero => intro rowc rows diff d hd h; cases h; exact hd
  | succ n ih =>
    intro rowc rows diff d hd h
    simp only [scanRows] at h
    cases hrp : scanRowPixels canvas.pix sample.pix pdt tdt rowc rows sample.dx.toNat diff with
    | none => rw [hrp] at h; cases h
    | some diff1 =>
      rw [hrp] at h
      exact ih _ _ _ _ (scanRowPixels_ub canvas.pix sample.pix pdt tdt _ _ _ _ _ hd hrp) h

lemma windowDiff_nonneg (canvas sample : RGBA) (pdt tdt : ℤ) (x y : ℕ) {d : ℤ}
    (h : windowDiff canvas sample pdt tdt x y = some d) : 0 ≤ d :=
  scanRows_lb canvas sample pdt tdt _ _ _ _ _ h

lemma windowDiff_ub (canvas sample : RGBA) (pdt tdt : ℤ) (x y : ℕ) {d : ℤ}
    (htdt : 0 ≤ tdt) (h : windowDiff canvas sample pdt tdt x y = some d) : d ≤ tdt :=
  scanRows_ub canvas sample pdt tdt _ _ _ _ _ htdt h

lemma i64_eq_floor (q : ℚ) (h : 0 ≤ q) : i64 q = ⌊q⌋ := by
  rw [i64, if_neg (not_lt.mpr h), Rat.floor_def]
  rw [show Int.ofNat (q.num.toNat / q.den) = ((q.num.toNat / q.den : ℕ) : ℤ) from rfl,
    Int.ofNat_ediv, Int.toNat_of_nonneg (Rat.num_nonneg.mpr h)]

lemma i64_mono {q1 q2 : ℚ} (h0 : 0 ≤ q1) (h : q1 ≤ q2) : i64 q1 ≤ i64 q2 := by
  rw [i64_eq_floor q1 h0, i64_eq_floor q2 (le_trans h0 h)]
  exact Int.floor_le_floor h

lemma pixelDiffThreshold_mono {t1 t2 : ℚ} (h0 : 0 ≤ t1) (h : t1 ≤ t2) :
    pixelDiffThreshold t1 ≤ pixelDiffThreshold t2 := by
  apply i64_mono
  · nlinarith
  · nlinarith

lemma maxTotalDiff_pos (canvas sample : RGBA) (h : emptyScan canvas sample = false) :
    0 < maxTotalDiff canvas sample := by
  simp only [emptyScan, Bool.or_eq_false_iff, decide_eq_false_iff_not, not_lt] at h
  rw [maxTotalDiff]
  have h1 : (0:ℤ) < canvas.dx - (sample.dx - 1) := by omega
  have h2 : (0:ℤ) < canvas.dy - (sample.dy - 1) := by omega
  nlinarith

lemma totalDiffThreshold_mono (canvas sample : RGBA) {t1 t2 : ℚ}
    (h0 : 0 ≤ t1) (h : t1 ≤ t2) (hM : 0 ≤ (maxTotalDiff canvas sample : ℚ)) :
    totalDiffThreshold canvas sample t1 ≤ totalDiffThreshold canvas sample t2 := by
  apply i64_mono
  · nlinarith
  · nlinarith [mul_le_mul_of_nonneg_right h hM]

lemma mem_rowMajorMatches {canvas sample : RGBA} {t : ℚ} {m : Match} :
    m ∈ rowMajorMatches canvas sample t ↔
      emptyScan canvas sample = false ∧
      ∃ y, y < (canvas.dy - (sample.dy - 1)).toNat ∧
        ∃ x, x < (canvas.dx - (sample.dx - 1)).toNat ∧
          ∃ d, windowDiff canvas sample (pixelDiffThreshold t)
              (totalDiffThreshold canvas sample t) x y = some d ∧
            mkMatch canvas sample x y d = m := by
  rw [rowMajorMatches]
  cases h : emptyScan canvas sample with
  | true => simp [h]
  | false =>
    rw [if_neg (by simp : ¬(false = true))]
    simp only [List.mem_flatMap, List.mem_range, rowMatches, List.mem_filterMap,
      acceptedAt, Option.map_eq_some']
    constructor
    · rintro ⟨y, hy, x, hx, d, hd, hm⟩
      exact ⟨by simp, y, hy, x, hx, d, hd, hm⟩
    · rintro ⟨-, y, hy, x, hx, d, hd, hm⟩
      exact ⟨y, hy, x, hx, d, hd, hm⟩

/-- The pure best-so-far update of `Find` once a first match is held:
replace only on strictly greater similarity. -/
def bestStep (b m : Match) : Match :=
  if m.Similarity > b.Similarity then m else b

lemma listScan_noabort {σ : Type} (f : σ → Match → σ × Option GoErr)
    (hf : ∀ st m, (f st m).2 = none) :
    ∀ (l : List Match) (st : σ),
    listScan f st l = (l.foldl (fun st m => (f st m).1) st, none) := by
  intro l
  induction l with
  | nil => intro st; rfl
  | cons m ms ih =>
    intro st
    simp only [listScan, List.foldl_cons]
    cases hfm : f st m with
    | mk st1 e =>
      cases e with
      | none => exact ih st1
      | some e1 =>
        have := hf st m
        rw [hfm] at this
        cases this

lemma findCallback_snd {sel : Selection} (hsel : sel ≠ Selection.Fastest)
    (st : Match × ℕ) (m : Match) : (findCallback sel st m).2 = none := by
  simp [findCallback, hsel]

lemma foldFind_pos (sel : Selection) : ∀ (l : List Match) (b : Match) (n : ℕ),
    List.foldl (fun st m => (findCallback sel st m).1) (b, n + 1) l =
      (List.foldl bestStep b l, n + 1 + l.length) := by
  intro l
  induction l with
  | nil => intro b n; rfl
  | cons m ms ih =>
    intro b n
    simp only [List.foldl_cons, List.length_cons]
    have hstep : (findCallback sel (b, n + 1) m).1 = (bestStep b m, n + 2) := by
      simp [findCallback, bestStep, Nat.succ_ne_zero]
    rw [hstep, ih]
    congr 1
    omega

lemma foldFind_start (sel : Selection) (m : Match) (l : List Match) :
    List.foldl (fun st m1 => (findCallback sel st m1).1) (zeroMatch, 0) (m :: l) =
      (List.foldl bestStep m l, 1 + l.length) := by
  simp only [List.foldl_cons]
  have hstep : (findCallback sel (zeroMatch, 0) m).1 = (m, 1) := by
    simp [findCallback]
  rw [hstep]
  exact foldFind_pos sel l m 0

lemma bestFold_firstMax : ∀ (l : List Match) (b : Match),
    isFirstMax (List.foldl bestStep b l) (b :: l) := by
  intro l
  induction l with
  | nil => intro b; exact ⟨[], [], rfl, by simp, by simp⟩
  | cons m ms ih =>
    intro b
    simp only [List.foldl_cons]
    by_cases h : m.Similarity > b.Similarity
    · rw [show bestStep b m = m from if_pos h]
      obtain ⟨l1, l2, heq, h1, h2⟩ := ih m
      have hr : b.Similarity < (List.foldl bestStep m ms).Similarity := by
        cases l1 with
        | nil =>
          injection heq with h3 h4
          rw [← h3]
          exact h
        | cons a l1t =>
          injection heq with h3 h4
          exact lt_trans h (h3 ▸ h1 a (List.mem_cons_self a l1t))
      refine ⟨b :: l1, l2, ?_, ?_, h2⟩
      · simp only [List.cons_append]
        exact congrArg (fun l => b :: l) heq
      · intro m1 hm1
        rcases List.mem_cons.mp hm1 with h5 | h5
        · rw [h5]; exact hr
        · exact h1 m1 h5
    · rw [show bestStep b m = b from if_neg h]
      obtain ⟨l1, l2, heq, h1, h2⟩ := ih b
      cases l1 with
      | nil =>
        injection heq with h3 h4
        refine ⟨[], m :: l2, ?_, by simp, ?_⟩
        · rw [List.nil_append, ← h3, ← h4]
        · intro m1 hm1
          rcases List.mem_cons.mp hm1 with h5 | h5
          · rw [h5, ← h3]; exact le_of_not_lt h
          · exact h2 m1 h5
      | cons a l1t =>
        injection heq with h3 h4
        have hb : b.Similarity < (List.foldl bestStep b ms).Similarity := by
          have := h1 a (List.mem_cons_self a l1t)
          rw [← h3] at this
          exact this
        refine ⟨b :: m :: l1t, l2, ?_, ?_, h2⟩
        · simp only [List.cons_append]
          exact congrArg (fun l => b :: m :: l) h4
        · intro m1 hm1
          rcases List.mem_cons.mp hm1 with h5 | h5
          · rw [h5]; exact hb
          · rcases List.mem_cons.mp h5 with h6 | h6
            · rw [h6]
              exact lt_of_le_of_lt (le_of_not_lt h) hb
            · exact h1 m1 (List.mem_cons_of_mem a h6)

lemma bestFold_mem (l : List Match) (b : Match) :
    List.foldl bestStep b l ∈ b :: l := by
  obtain ⟨l1, l2, heq, -, -⟩ := bestFold_firstMax l b
  rw [heq]
  exact List.mem_append_right l1 (List.mem_cons_self _ _)

lemma Find_best_only (canvas sample : RGBA) (t : ℚ) (sel : Selection)
    (hsel : sel ≠ Selection.Fastest) :
    Find none canvas sample t sel =
      (match rowMajorMatches canvas sample t with
       | [] => (zeroMatch, some GoErr.errNotFound)
       | m :: ms =>
         (List.foldl bestStep m ms,
           if sel = Selection.Only ∧ 0 < ms.length then some GoErr.errMultipleFound
           else none)) := by
  simp only [Find, foreachRGBA_none]
  cases hmm : rowMajorMatches canvas sample t with
  | nil => rfl
  | cons m ms =>
    rw [listScan_noabort (findCallback sel) (fun st m1 => findCallback_snd hsel st m1),
      foldFind_start]
    show (if 1 + ms.length = 0 then (List.foldl bestStep m ms, some GoErr.errNotFound)
      else if sel = Selection.Only ∧ 1 < 1 + ms.length then
        (List.foldl bestStep m ms, some GoErr.errMultipleFound)
      else (List.foldl bestStep m ms, none)) =
      (List.foldl bestStep m ms,
        if sel = Selection.Only ∧ 0 < ms.length then some GoErr.errMultipleFound else none)
    have hiff : (sel = Selection.Only ∧ 1 < 1 + ms.length) ↔
        (sel = Selection.Only ∧ 0 < ms.length) := by
      constructor <;> rintro ⟨ha, hb⟩ <;> exact ⟨ha, by omega⟩
    rw [if_neg (by omega : ¬1 + ms.length = 0), if_congr hiff rfl rfl]
    by_cases hc : sel = Selection.Only ∧ 0 < ms.length
    · rw [if_pos hc, if_pos hc]
    · rw [if_neg hc, if_neg hc]

lemma Find_fastest (canvas sample : RGBA) (t : ℚ) :
    Find none canvas sample t Selection.Fastest =
      (match rowMajorMatches canvas sample t with
       | [] => (zeroMatch, some GoErr.errNotFound)
       | m :: _ => (m, none)) := by
  simp only [Find, foreachRGBA_none]
  cases hmm : rowMajorMatches canvas sample t with
  | nil => rfl
  | cons m ms => rfl

lemma Find_ne_errBreak (ctx : Option GoErr) (canvas sample : RGBA) (t : ℚ)
    (sel : Selection) : ¬(Find ctx canvas sample t sel).2 = some GoErr.errBreak := by
  simp only [Find]
  split
  · split
    · simp
    · split <;> simp
  · next e heq =>
    intro hcon
    have he : e = GoErr.errBreak := by simpa using hcon
    subst he
    split at heq
    · cases heq
    · next hne => exact hne heq

lemma mkMatch_rminX (canvas sample : RGBA) (x y : ℕ) (d : ℤ) :
    (mkMatch canvas sample x y d).rminX = canvas.minX + x := rfl

lemma mkMatch_rminY (canvas sample : RGBA) (x y : ℕ) (d : ℤ) :
    (mkMatch canvas sample x y d).rminY = canvas.minY + y := rfl

lemma mkMatch_rmaxX (canvas sample : RGBA) (x y : ℕ) (d : ℤ) :
    (mkMatch canvas sample x y d).rmaxX = canvas.minX + x + sample.dx := rfl

lemma mkMatch_rmaxY (canvas sample : RGBA) (x y : ℕ) (d : ℤ) :
    (mkMatch canvas sample x y d).rmaxY = canvas.minY + y + sample.dy := rfl

lemma mkMatch_Similarity (canvas sample : RGBA) (x y : ℕ) (d : ℤ) :
    (mkMatch canvas sample x y d).Similarity =
      1 - (d : ℚ) / (maxTotalDiff canvas sample : ℚ) := rfl

lemma acceptedAt_eq_some {canvas sample : RGBA} {t : ℚ} {y x : ℕ} {m : Match}
    (h : acceptedAt canvas sample t y x = some m) :
    ∃ d, windowDiff canvas sample (pixelDiffThreshold t)
        (totalDiffThreshold canvas sample t) x y = some d ∧
      m = mkMatch canvas sample x y d := by
  rw [acceptedAt, Option.map_eq_some'] at h
  obtain ⟨d, hd, hm⟩ := h
  exact ⟨d, hd, hm.symm⟩

lemma mem_rowMatches_rminY {canvas sample : RGBA} {t : ℚ} {y : ℕ} {m : Match}
    (h : m ∈ rowMatches canvas sample t y) : m.rminY = canvas.minY + y := by
  rw [rowMatches, List.mem_filterMap] at h
  obtain ⟨x, -, hx⟩ := h
  obtain ⟨d, -, hm⟩ := acceptedAt_eq_some hx
  rw [hm, mkMatch_rminY]

lemma pairwise_rowMatches (canvas sample : RGBA) (t : ℚ) (y : ℕ) :
    (rowMatches canvas sample t y).Pairwise originBefore := by
  rw [rowMatches]
  apply List.Pairwise.filterMap (acceptedAt canvas sample t y)
      (R := fun x1 x2 : ℕ => x1 < x2)
  · intro x1 x2 hx m1 hm1 m2 hm2
    obtain ⟨d1, -, he1⟩ := acceptedAt_eq_some hm1
    obtain ⟨d2, -, he2⟩ := acceptedAt_eq_some hm2
    right
    rw [he1, he2, mkMatch_rminX, mkMatch_rminX, mkMatch_rminY, mkMatch_rminY]
    exact ⟨rfl, by omega⟩
  · exact List.pairwise_lt_range _

lemma pairwise_flatMap_of {R : Match → Match → Prop} (g : ℕ → List Match) :
    ∀ l : List ℕ, (∀ y, (g y).Pairwise R) →
    (∀ y1 y2, y1 < y2 → ∀ a ∈ g y1, ∀ b ∈ g y2, R a b) →
    l.Pairwise (fun y1 y2 : ℕ => y1 < y2) → (l.flatMap g).Pairwise R := by
  intro l hin hcross hl
  induction l with
  | nil => exact List.Pairwise.nil
  | cons y ys ih =>
    rw [List.flatMap_cons, List.pairwise_append]
    obtain ⟨hy, hys⟩ := List.pairwise_cons.mp hl
    refine ⟨hin y, ih hys, ?_⟩
    intro a ha b hb
    obtain ⟨y2, hy2, hb2⟩ := List.mem_flatMap.mp hb
    exact hcross y y2 (hy y2 hy2) a ha b hb2

lemma pairwise_rowMajorMatches (canvas sample : RGBA) (t : ℚ) :
    (rowMajorMatches canvas sample t).Pairwise originBefore := by
  rw [rowMajorMatches]
  split
  · exact List.Pairwise.nil
  · apply pairwise_flatMap_of
    · exact pairwise_rowMatches canvas sample t
    · intro y1 y2 hy a ha b hb
      left
      rw [mem_rowMatches_rminY ha, mem_rowMatches_rminY hb]
      omega
    · exact List.pairwise_lt_range _

lemma mem_insertSorted {a m : Match} : ∀ l : List Match,
    (a ∈ insertSorted m l ↔ a = m ∨ a ∈ l) := by
  intro l
  induction l with
  | nil => simp [insertSorted]
  | cons x xs ih =>
    rw [insertSorted]
    split
    · simp [List.mem_cons]
    · simp only [List.mem_cons, ih]
      tauto

lemma mem_sortMatches {a : Match} : ∀ l : List Match, (a ∈ sortMatches l ↔ a ∈ l) := by
  intro l
  induction l with
  | nil => simp [sortMatches]
  | cons x xs ih =>
    rw [sortMatches, mem_insertSorted]
    simp [List.mem_cons, ih]

/-- C1: the claim is false on the code. At tolerance 1/100 with the 2×1 canvas
`imgC1` and the 1×1 black sample, the window at origin (0,0) has total
difference 10; the spec's threshold `round(tolerance*sw*sh*3*255)` is 8, so
the spec would reject it, yet the scan emits it; and the emitted similarity is
`1 - 10/1530 = 152/153` (denominator derived from the decremented scan-range
dimensions), not the spec's `1 - 10/765`. -/
theorem C1_counterexample :
    windowDiff imgC1 imgB (pixelDiffThreshold (1/100))
      (totalDiffThreshold imgC1 imgB (1/100)) 0 0 = some 10 ∧
    (scanTrace none imgC1 imgB (1/100)).1 =
      [⟨0, 0, 1, 1, 152/153⟩, ⟨1, 0, 2, 1, 1⟩] ∧
    totalDiffThreshold imgC1 imgB (1/100) = 15 ∧
    specTotalDiffThreshold imgB (1/100) = 8 ∧
    ¬(10 : ℤ) ≤ specTotalDiffThreshold imgB (1/100) ∧
    ¬(152/153 : ℚ) = 1 - (10 : ℚ) / ((specMaxTotalDiff imgB : ℤ) : ℚ) := by
  decide

/-- C1 amended: the window threshold the scan uses is
`round(tolerance * (cw-sw+1) * (ch-sh+1) * 3 * 255)` (the decremented
scan-range dimensions, not the sample dimensions), and every emitted match's
similarity is `1 - diff/maxTotalDiff` with that same `maxTotalDiff`
denominator, where `diff` is the window's accumulated difference. -/
theorem C1_amended_threshold (canvas sample : RGBA) (t : ℚ) :
    totalDiffThreshold canvas sample t =
      i64 (t * (maxTotalDiff canvas sample : ℚ) + 1 / 2) ∧
    maxTotalDiff canvas sample =
      (canvas.dx - (sample.dx - 1)) * (canvas.dy - (sample.dy - 1)) * 3 * 255 ∧
    ∀ m ∈ (scanTrace none canvas sample t).1, ∃ x y : ℕ, ∃ d : ℤ,
      windowDiff canvas sample (pixelDiffThreshold t)
        (totalDiffThreshold canvas sample t) x y = some d ∧
      m.Similarity = 1 - (d : ℚ) / (maxTotalDiff canvas sample : ℚ) := by
  refine ⟨rfl, rfl, ?_⟩
  intro m hm
  rw [scanTrace_none] at hm
  obtain ⟨-, y, hy, x, hx, d, hd, hm2⟩ := mem_rowMajorMatches.mp hm
  exact ⟨x, y, d, hd, by rw [← hm2, mkMatch_Similarity]⟩

/-- Witness for the amended C1 at a concrete input. -/
theorem C1_witness :
    (⟨0, 0, 1, 1, (1:ℚ)⟩ : Match) ∈ (scanTrace none imgB imgB 0).1 ∧
    (∃ x y : ℕ, ∃ d : ℤ,
      windowDiff imgB imgB (pixelDiffThreshold 0) (totalDiffThreshold imgB imgB 0) x y =
        some d ∧
      Match.Similarity ⟨0, 0, 1, 1, 1⟩ = 1 - (d : ℚ) / (maxTotalDiff imgB imgB : ℚ)) :=
  ⟨by decide, (C1_amended_threshold imgB imgB 0).2.2 ⟨0, 0, 1, 1, 1⟩ (by decide)⟩

/-- C2: the code violates the documented invariant `similarity ≥ 1 − tolerance`.
At tolerance 1/500 with 1×1 canvas pixel (2,0,0,255) and 1×1 black sample,
`maxTotalDiff = 765` and the round-half-up window threshold is
`int64(1.53 + 0.5) = 2`, so the window with total difference 2 is emitted with
similarity `763/765 ≈ 0.99739 < 0.998 = 1 − tolerance`. -/
theorem C2_code_bug_eval :
    (scanTrace none imgR2 imgB (1/500)).1 = [⟨0, 0, 1, 1, 763/765⟩] ∧
    All none imgR2 imgB (1/500) = ([⟨0, 0, 1, 1, 763/765⟩], none) ∧
    (763/765 : ℚ) < 1 - 1/500 := by
  decide

/-- C3: the claim is false on the code: when the callback returns `ErrBreak`,
the public `Foreach` returns `ErrBreak` itself, not success. -/
theorem C3_counterexample :
    Foreach none imgB imgB 0 (fun _ => some GoErr.errBreak) = some GoErr.errBreak ∧
    ¬Foreach none imgB imgB 0 (fun _ => some GoErr.errBreak) = none := by
  decide

/-- C3 amended: `Foreach` propagates `ErrBreak` verbatim to its caller (it
aborts the scan and surfaces as the result exactly when a match exists); the
suppression happens only inside `Find`, which maps `ErrBreak` to success
before its not-found/multiple checks and hence never returns `ErrBreak`. -/
theorem C3_amended_errBreak (canvas sample : RGBA) (t : ℚ) :
    Foreach none canvas sample t (fun _ => some GoErr.errBreak) =
      (if rowMajorMatches canvas sample t = [] then none else some GoErr.errBreak) ∧
    ∀ (ctx : Option GoErr) (sel : Selection),
      ¬(Find ctx canvas sample t sel).2 = some GoErr.errBreak := by
  constructor
  · rw [Foreach_none]
    cases h : rowMajorMatches canvas sample t with
    | nil => rw [if_pos rfl]; rfl
    | cons m ms => rw [if_neg (by simp)]; rfl
  · intro ctx sel
    exact Find_ne_errBreak ctx canvas sample t sel

/-- Witness for the amended C3 at a concrete input. -/
theorem C3_witness :
    Foreach none imgB imgB 0 (fun _ => some GoErr.errBreak) =
      (if rowMajorMatches imgB imgB 0 = [] then none else some GoErr.errBreak) ∧
    ¬(Find none imgB imgB 0 Selection.Fastest).2 = some GoErr.errBreak :=
  ⟨(C3_amended_errBreak imgB imgB 0).1,
    (C3_amended_errBreak imgB imgB 0).2 none Selection.Fastest⟩

/-- C4: in `Best` and `Only` modes `Find` never stops early; it holds the first
match and replaces it only on strictly greater similarity, so the returned
match is the first match of maximal similarity in row-major order. A completed
scan with zero matches reports `ErrNotFound`; `Only` mode with more than one
match reports `ErrMultipleFound` together with the best match. -/
theorem C4_find_best_only (canvas sample : RGBA) (t : ℚ) (sel : Selection)
    (hsel : sel = Selection.Best ∨ sel = Selection.Only) :
    (rowMajorMatches canvas sample t = [] →
      Find none canvas sample t sel = (zeroMatch, some GoErr.errNotFound)) ∧
    ∀ m0 ms, rowMajorMatches canvas sample t = m0 :: ms →
      isFirstMax (Find none canvas sample t sel).1 (m0 :: ms) ∧
      (Find none canvas sample t sel).2 =
        (if sel = Selection.Only ∧ 0 < ms.length then some GoErr.errMultipleFound
         else none) := by
  have hne : sel ≠ Selection.Fastest := by
    rcases hsel with h | h <;> rw [h] <;> decide
  constructor
  · intro hmm
    rw [Find_best_only canvas sample t sel hne, hmm]
  · intro m0 ms hmm
    rw [Find_best_only canvas sample t sel hne, hmm]
    exact ⟨bestFold_firstMax ms m0, rfl⟩

/-- Witness for C4 at a concrete input. -/
theorem C4_witness :
    rowMajorMatches imgB imgB 0 = [⟨0, 0, 1, 1, (1:ℚ)⟩] ∧
    isFirstMax (Find none imgB imgB 0 Selection.Only).1 [⟨0, 0, 1, 1, 1⟩] ∧
    (Find none imgB imgB 0 Selection.Only).2 =
      (if Selection.Only = Selection.Only ∧ 0 < ([] : List Match).length then
        some GoErr.errMultipleFound else none) :=
  ⟨by decide,
    ((C4_find_best_only imgB imgB 0 Selection.Only (Or.inr rfl)).2
      ⟨0, 0, 1, 1, 1⟩ [] (by decide)).1,
    ((C4_find_best_only imgB imgB 0 Selection.Only (Or.inr rfl)).2
      ⟨0, 0, 1, 1, 1⟩ [] (by decide)).2⟩

/-- C5: tolerance monotonicity. For tolerances `0 ≤ t1 < t2 ≤ 1`, every match
rectangle emitted at `t1` is also emitted at `t2` (in fact the very same match
is emitted, since the similarity denominator does not depend on tolerance). -/
theorem C5_tolerance_monotone (canvas sample : RGBA) (t1 t2 : ℚ)
    (h0 : 0 ≤ t1) (h12 : t1 < t2) (_h2 : t2 ≤ 1)
    (m : Match) (hm : m ∈ (scanTrace none canvas sample t1).1) :
    ∃ m1 ∈ (scanTrace none canvas sample t2).1,
      m1.rminX = m.rminX ∧ m1.rminY = m.rminY ∧
      m1.rmaxX = m.rmaxX ∧ m1.rmaxY = m.rmaxY := by
  rw [scanTrace_none] at hm ⊢
  obtain ⟨hempty, y, hy, x, hx, d, hd, hm2⟩ := mem_rowMajorMatches.mp hm
  have hM : (0:ℚ) ≤ (maxTotalDiff canvas sample : ℚ) := by
    exact_mod_cast le_of_lt (maxTotalDiff_pos canvas sample hempty)
  have hp := pixelDiffThreshold_mono h0 (le_of_lt h12)
  have ht := totalDiffThreshold_mono canvas sample h0 (le_of_lt h12) hM
  have hd2 := windowDiff_mono canvas sample hp ht x y hd
  exact ⟨m, mem_rowMajorMatches.mpr ⟨hempty, y, hy, x, hx, d, hd2, hm2⟩,
    rfl, rfl, rfl, rfl⟩

/-- Witness for C5 at a concrete input. -/
theorem C5_witness :
    (0:ℚ) ≤ 0 ∧ (0:ℚ) < 1 ∧ (1:ℚ) ≤ 1 ∧
    ∃ m1 ∈ (scanTrace none imgB imgB 1).1,
      m1.rminX = Match.rminX ⟨0, 0, 1, 1, (1:ℚ)⟩ ∧
      m1.rminY = Match.rminY ⟨0, 0, 1, 1, 1⟩ ∧
      m1.rmaxX = Match.rmaxX ⟨0, 0, 1, 1, 1⟩ ∧
      m1.rmaxY = Match.rmaxY ⟨0, 0, 1, 1, 1⟩ :=
  ⟨le_refl 0, by norm_num, le_refl 1,
    C5_tolerance_monotone imgB imgB 0 1 (le_refl 0) (by norm_num) (le_refl 1)
      ⟨0, 0, 1, 1, 1⟩ (by decide)⟩

/-- C6: at tolerance 0 both thresholds round to 0, so an accepted window has
total difference exactly 0 and every reported match has similarity exactly 1:
every match emitted to a callback, every match returned by `All`, and the
match returned by `Find` whenever it does not report not-found. -/
theorem C6_tolerance_zero_exact (canvas sample : RGBA) :
    (∀ m ∈ (scanTrace none canvas sample 0).1, m.Similarity = 1) ∧
    (∀ m ∈ (All none canvas sample 0).1, m.Similarity = 1) ∧
    ∀ sel, ¬(Find none canvas sample 0 sel).2 = some GoErr.errNotFound →
      (Find none canvas sample 0 sel).1.Similarity = 1 := by
  have tdt0 : totalDiffThreshold canvas sample 0 = 0 := by
    have h : (0:ℚ) * (maxTotalDiff canvas sample : ℚ) + 1 / 2 = 1 / 2 := by ring
    rw [totalDiffThreshold, h]
    decide
  have key : ∀ m ∈ rowMajorMatches canvas sample 0, m.Similarity = 1 := by
    intro m hm
    obtain ⟨hempty, y, hy, x, hx, d, hd, hm2⟩ := mem_rowMajorMatches.mp hm
    have h1 : 0 ≤ d := windowDiff_nonneg canvas sample _ _ x y hd
    have h2 : d ≤ totalDiffThreshold canvas sample 0 :=
      windowDiff_ub canvas sample _ _ x y (by rw [tdt0]) hd
    rw [tdt0] at h2
    have hd0 : d = 0 := le_antisymm h2 h1
    rw [← hm2, mkMatch_Similarity, hd0]
    norm_num
  refine ⟨?_, ?_, ?_⟩
  · intro m hm
    rw [scanTrace_none] at hm
    exact key m hm
  · intro m hm
    simp only [All] at hm
    rw [mem_sortMatches, scanTrace_none] at hm
    exact key m hm
  · intro sel hnf
    cases sel with
    | Fastest =>
      rw [Find_fastest] at hnf ⊢
      cases hmm : rowMajorMatches canvas sample 0 with
      | nil => rw [hmm] at hnf; exact absurd rfl hnf
      | cons m ms =>
        exact key m (by rw [hmm]; exact List.mem_cons_self m ms)
    | Best =>
      rw [Find_best_only canvas sample 0 Selection.Best (by decide)] at hnf ⊢
      cases hmm : rowMajorMatches canvas sample 0 with
      | nil => rw [hmm] at hnf; exact absurd rfl hnf
      | cons m ms =>
        exact key _ (by rw [hmm]; exact bestFold_mem ms m)
    | Only =>
      rw [Find_best_only canvas sample 0 Selection.Only (by decide)] at hnf ⊢
      cases hmm : rowMajorMatches canvas sample 0 with
      | nil => rw [hmm] at hnf; exact absurd rfl hnf
      | cons m ms =>
        exact key _ (by rw [hmm]; exact bestFold_mem ms m)

/-- Witness for C6 at a concrete input. -/
theorem C6_witness :
    (⟨0, 0, 1, 1, (1:ℚ)⟩ : Match) ∈ (scanTrace none imgB imgB 0).1 ∧
    Match.Similarity ⟨0, 0, 1, 1, 1⟩ = 1 :=
  ⟨by decide, (C6_tolerance_zero_exact imgB imgB).1 ⟨0, 0, 1, 1, 1⟩ (by decide)⟩

/-- C7: the scan emits exactly the accepted windows of the row-major
enumeration (outer `y` over `0..ch-sh`, inner `x` over `0..cw-sw`), so the
emission trace is ordered by strictly ascending `(y, x)` origins, and a
non-`none` callback result aborts the scan immediately with that value
returned: for every stateless callback the scan result equals the first
non-`none` callback value along that row-major match list. -/
theorem C7_row_major_scan (canvas sample : RGBA) (t : ℚ) :
    (scanTrace none canvas sample t).1 = rowMajorMatches canvas sample t ∧
    (scanTrace none canvas sample t).2 = none ∧
    List.Pairwise originBefore (scanTrace none canvas sample t).1 ∧
    ∀ g : Match → Option GoErr,
      Foreach none canvas sample t g = listScanErr g (rowMajorMatches canvas sample t) := by
  refine ⟨?_, ?_, ?_, ?_⟩
  · rw [scanTrace_none]
  · rw [scanTrace_none]
  · rw [scanTrace_none]
    exact pairwise_rowMajorMatches canvas sample t
  · exact Foreach_none canvas sample t

/-- Witness for C7 at a concrete input. -/
theorem C7_witness :
    (scanTrace none imgC1 imgB 0).1 = rowMajorMatches imgC1 imgB 0 ∧
    List.Pairwise originBefore (scanTrace none imgC1 imgB 0).1 :=
  ⟨(C7_row_major_scan imgC1 imgB 0).1, (C7_row_major_scan imgC1 imgB 0).2.2.1⟩

/-- C8: a sample with zero width or height, or strictly wider or taller than
the canvas, makes the scan return success with the state untouched for every
callback and starting state: the callback is never invoked and no error is
produced. -/
theorem C8_empty_scan_success (ctx : Option GoErr) (canvas sample : RGBA) (t : ℚ)
    (σ : Type) (f : σ → Match → σ × Option GoErr) (s0 : σ)
    (h : sample.dx = 0 ∨ sample.dy = 0 ∨ canvas.dx < sample.dx ∨ canvas.dy < sample.dy) :
    foreachRGBA ctx canvas sample t f s0 = (s0, none) := by
  apply foreachRGBA_empty
  rw [emptyScan]
  rcases h with h | h | h | h <;> simp [h]

/-- Witness for C8 at a concrete input. -/
theorem C8_witness :
    (imgZ.dx = 0 ∨ imgZ.dy = 0 ∨ imgB.dx < imgZ.dx ∨ imgB.dy < imgZ.dy) ∧
    foreachRGBA none imgB imgZ 0 appendCallback ([] : List Match) = ([], none) :=
  ⟨Or.inl (by decide),
    C8_empty_scan_success none imgB imgZ 0 (List Match) appendCallback []
      (Or.inl (by decide))⟩

/-- C9: the claim is false on the code: with the cancellation signal already
active but a zero-sized sample, the size guard returns before the context is
consulted, so `All` returns success with no matches, `Find` returns
`ErrNotFound` and `Foreach` returns success — not the cancellation error. -/
theorem C9_counterexample :
    All (some GoErr.canceled) imgB imgZ 0 = ([], none) ∧
    Find (some GoErr.canceled) imgB imgZ 0 Selection.Fastest =
      (zeroMatch, some GoErr.errNotFound) ∧
    Foreach (some GoErr.canceled) imgB imgZ 0 (fun _ => none) = none ∧
    ¬(none : Option GoErr) = some GoErr.canceled ∧
    ¬some GoErr.errNotFound = some GoErr.canceled := by
  decide

/-- C9 amended: provided the size guard passes (nonzero sample that fits in
the canvas) and the cancellation cause is not `ErrBreak` (a context error
never is), a scan started with the cancellation signal already active returns
the cancellation error immediately with no matches, for the scanner and for
all three public operations. -/
theorem C9_amended_cancelled (canvas sample : RGBA) (t : ℚ) (e : GoErr)
    (hscan : emptyScan canvas sample = false) (hne : ¬e = GoErr.errBreak) :
    (∀ (σ : Type) (f : σ → Match → σ × Option GoErr) (s0 : σ),
      foreachRGBA (some e) canvas sample t f s0 = (s0, some e)) ∧
    All (some e) canvas sample t = ([], some e) ∧
    (∀ sel, Find (some e) canvas sample t sel = (zeroMatch, some e)) ∧
    ∀ g, Foreach (some e) canvas sample t g = some e := by
  have hfe : ∀ (σ : Type) (f : σ → Match → σ × Option GoErr) (s0 : σ),
      foreachRGBA (some e) canvas sample t f s0 = (s0, some e) :=
    fun σ f s0 => foreachRGBA_cancel canvas sample t e f s0 hscan
  refine ⟨hfe, ?_, ?_, ?_⟩
  · have h1 : scanTrace (some e) canvas sample t = ([], some e) :=
      hfe _ appendCallback []
    simp only [All, h1]
    rfl
  · intro sel
    simp only [Find, hfe _ (findCallback sel) (zeroMatch, 0)]
    rw [if_neg (by simp [hne])]
  · intro g
    rw [Foreach, hfe _ _ _]

/-- Witness for the amended C9 at a concrete input. -/
theorem C9_witness :
    emptyScan imgB imgB = false ∧
    All (some (GoErr.other 3)) imgB imgB 0 = ([], some (GoErr.other 3)) :=
  ⟨by decide,
    (C9_amended_cancelled imgB imgB 0 (GoErr.other 3) (by decide) (by decide)).2.1⟩

/-- C10: every emitted match's rectangle is expressed in the canvas's own
coordinate space: its min corner is `canvas.Rect.Min` plus the window origin,
its max corner is the min corner plus the sample dimensions, and the whole
rectangle lies inside `canvas.Rect`. -/
theorem C10_match_rect (canvas sample : RGBA) (t : ℚ) (m : Match)
    (hm : m ∈ (scanTrace none canvas sample t).1) :
    (∃ x y : ℕ, m.rminX = canvas.minX + x ∧ m.rminY = canvas.minY + y) ∧
    m.rmaxX = m.rminX + sample.dx ∧ m.rmaxY = m.rminY + sample.dy ∧
    canvas.minX ≤ m.rminX ∧ m.rmaxX ≤ canvas.maxX ∧
    canvas.minY ≤ m.rminY ∧ m.rmaxY ≤ canvas.maxY := by
  rw [scanTrace_none] at hm
  obtain ⟨hempty, y, hy, x, hx, d, hd, hm2⟩ := mem_rowMajorMatches.mp hm
  simp only [emptyScan, Bool.or_eq_false_iff, decide_eq_false_iff_not, not_lt] at hempty
  obtain ⟨⟨⟨he1, he2⟩, he3⟩, he4⟩ := hempty
  have hdxc : canvas.dx = canvas.maxX - canvas.minX := rfl
  have hdyc : canvas.dy = canvas.maxY - canvas.minY := rfl
  have hxi : (x:ℤ) < canvas.dx - (sample.dx - 1) := by omega
  have hyi : (y:ℤ) < canvas.dy - (sample.dy - 1) := by omega
  subst hm2
  refine ⟨⟨x, y, rfl, rfl⟩, rfl, rfl, ?_, ?_, ?_, ?_⟩
  · rw [mkMatch_rminX]; omega
  · rw [mkMatch_rmaxX]; omega
  · rw [mkMatch_rminY]; omega
  · rw [mkMatch_rmaxY]; omega

/-- Witness for C10 at a concrete input. -/
theorem C10_witness :
    imgB.minX ≤ Match.rminX ⟨0, 0, 1, 1, (1:ℚ)⟩ ∧
    Match.rmaxX ⟨0, 0, 1, 1, (1:ℚ)⟩ ≤ imgB.maxX :=
  ⟨(C10_match_rect imgB imgB 0 ⟨0, 0, 1, 1, 1⟩ (by decide)).2.2.2.1,
    (C10_match_rect imgB imgB 0 ⟨0, 0, 1, 1, 1⟩ (by decide)).2.2.2.2.1⟩

end LocateImage
